import Mathlib

/-!
DDX: device registry, request references and the network transport adapter.

A shallow embedding of parts of the DDX test GUI and daemon
(`DDX-testgui/devmgr.cpp`, `DDX-testgui/remdev.h`, `DDX-testgui/netdev.cpp`,
`DDX-daemon/network.cpp`, `DDX-daemon/path.cpp`) together with theorems about
them.

Conventions of the embedding:

* a `RemDev *` is a natural number (pointer identity);
* a `QMutex` is a Boolean, `true` while it is held; locking a held mutex or
  unlocking a free one has no successor state (`none`);
* a `QList` is a `List`;
* calls into code outside the embedded files (`RemDev::close`,
  `RemDev::handleItem`, the calls on Qt sockets and on the daemon) are
  recorded in observation fields of the state or in a list of events.
-/

namespace DDX

/-! ## Data model -/

/-- Disconnection reasons: `RemDev::DisconnectReason` (remdev.h 72-82). -/
inductive DisconnectReason where
  | UnknownReason
  | ShuttingDown
  | Restarting
  | FatalError
  | ConnectionTerminated
  | RegistrationTimeout
  | BufferOverflow
  | StreamClosed
  | EncryptionRequired
  deriving DecidableEq, Repr

/-- A `RemDev *`; devices are compared by pointer identity. -/
abbrev RemDevPtr := Nat

/-- One observed invocation of `RemDev::close(reason)`, with the registry
state seen by the callee at the moment of the call. -/
structure CloseCall where
  /-- The device `close` was invoked on. -/
  dev : RemDevPtr
  /-- The reason that was passed. -/
  reason : DisconnectReason
  /-- Whether `dLock` was held when the call was made. -/
  lockHeld : Bool
  /-- The value of `closing` when the call was made. -/
  closingSeen : Bool
  /-- The content of `devices` when the call was made. -/
  devicesSeen : List RemDevPtr
  deriving DecidableEq, Repr

/-- The fields of `DevMgr` used by devmgr.cpp, and the record of the
`RemDev::close` calls made so far. -/
structure DevMgr where
  /-- The `QList<RemDev*> devices`. -/
  devices : List RemDevPtr
  /-- The counter `unregCt` (an `int`). -/
  unregCt : Int
  /-- The flag `closing`. -/
  closing : Bool
  /-- The mutex `dLock`: `true` while held. -/
  dLock : Bool
  /-- Observation: every `RemDev::close` invocation so far, oldest first. -/
  closeCalls : List CloseCall
  deriving DecidableEq, Repr

/-- A `QByteArray`. -/
abbrev QByteArray := List UInt8

/-- The function `QString::toUtf8`. -/
def toUtf8 (s : String) : QByteArray :=
  s.data.flatMap String.utf8EncodeChar

/-- Reduction of an integer to the range of a 32-bit `int`. -/
def wrapInt32 (n : Int) : Int :=
  (n + 2 ^ 31) % 2 ^ 32 - 2 ^ 31

/-! ## DevMgr (devmgr.cpp) -/

/-- The state after the constructor `DevMgr::DevMgr` (devmgr.cpp 22-29):
`unregCt = 0`, `closing = false`, an empty list and a free mutex. -/
def DevMgr.fresh : DevMgr :=
  { devices := [], unregCt := 0, closing := false, dLock := false, closeCalls := [] }

/-- The call `dLock.lock()`. -/
def DevMgr.lockD (m : DevMgr) : Option DevMgr :=
  if m.dLock then none else some { m with dLock := true }

/-- The call `dLock.unlock()`. -/
def DevMgr.unlockD (m : DevMgr) : Option DevMgr :=
  if m.dLock then some { m with dLock := false } else none

/-- `DevMgr::removeDevice` (devmgr.cpp 56-61). -/
def DevMgr.removeDevice (m : DevMgr) (dev : RemDevPtr) : Option DevMgr :=
  if m.closing then some m
  else do
    let m1 ← m.lockD
    let m2 := { m1 with devices := m1.devices.erase dev }
    m2.unlockD

/-- Modelled from the spec: `RemDev::close` (declared in remdev.h 327, its body
in remdev.cpp is not among the sources).  The invocation is recorded with the
registry state it sees; then, as the spec says of close ("notify the Device
Registry for removal", "close() synchronously triggers callbacks that may
re-enter the registry"), it calls `DevMgr::removeDevice(this)`. -/
def RemDev.close (dev : RemDevPtr) (reason : DisconnectReason) (m : DevMgr) :
    Option DevMgr :=
  DevMgr.removeDevice
    { m with closeCalls := m.closeCalls ++
        [{ dev := dev, reason := reason, lockHeld := m.dLock,
           closingSeen := m.closing, devicesSeen := m.devices }] }
    dev

/-- The loop of `DevMgr::closeAll` (devmgr.cpp 39-41):
`for (int i = 0; i < devices.size(); i++) devices.at(i)->close(reason);`
started at index `i`. -/
def DevMgr.closeLoop (reason : DisconnectReason) (i : Nat) (m : DevMgr) :
    Option DevMgr :=
  if h : i < m.devices.length then
    match hc : RemDev.close (m.devices.get ⟨i, h⟩) reason m with
    | none => none
    | some m' => DevMgr.closeLoop reason (i + 1) m'
  else some m
termination_by m.devices.length - i
decreasing_by
  have hlen : m'.devices.length ≤ m.devices.length := by
    unfold RemDev.close DevMgr.removeDevice DevMgr.lockD DevMgr.unlockD at hc
    by_cases hcl : m.closing = true
    · simp [hcl] at hc
      subst hc
      simp
    · by_cases hl : m.dLock = true
      · simp [hcl, hl] at hc
      · simp [hcl, hl] at hc
        subst hc
        simp only [List.length_erase]
        split <;> omega
  omega

/-- `DevMgr::closeAll` (devmgr.cpp 36-45). -/
def DevMgr.closeAll (m : DevMgr) (reason : DisconnectReason) : Option DevMgr := do
  let m1 := { m with closing := true }
  let m2 ← m1.lockD
  let m3 ← DevMgr.closeLoop reason 0 m2
  let m4 := { m3 with devices := [] }
  let m5 ← m4.unlockD
  pure { m5 with closing := false }

/-- The text `tr("Unknown%1").arg(n)`: the placeholder is replaced by the
decimal numeral of `n` (no translation is installed). -/
def unknownName (n : Int) : String :=
  "Unknown" ++ toString n

/-- The number that a decimal numeral, given as bytes, denotes. -/
def decimalValue (bs : List UInt8) : Nat :=
  bs.foldl (fun acc b => 10 * acc + (b.toNat - 48)) 0

/-- `DevMgr::addDevice` (devmgr.cpp 47-54); the signal connection to the log
area has no effect on the registry.  Returns the new state and the
identifier. -/
def DevMgr.addDevice (m : DevMgr) (dev : RemDevPtr) : Option (DevMgr × QByteArray) := do
  let m1 ← m.lockD
  let m2 := { m1 with devices := m1.devices ++ [dev] }
  let m3 ← m2.unlockD
  let m4 := { m3 with unregCt := wrapInt32 (m3.unregCt + 1) }
  let name := unknownName m4.unregCt
  pure (m4, toUtf8 name)

/-- A call made on a `DevMgr` by its clients. -/
inductive Call where
  | addDevice (dev : RemDevPtr)
  | removeDevice (dev : RemDevPtr)
  | closeAll (reason : DisconnectReason)
  deriving DecidableEq, Repr

/-- One client call: the new state and, for `addDevice`, the identifier it
returned. -/
def DevMgr.call (m : DevMgr) : Call → Option (DevMgr × List QByteArray)
  | .addDevice dev => (m.addDevice dev).map (fun r => (r.1, [r.2]))
  | .removeDevice dev => (m.removeDevice dev).map (fun m' => (m', []))
  | .closeAll reason => (m.closeAll reason).map (fun m' => (m', []))

/-- A sequence of client calls, one after the other: the final state and the
identifiers returned by the `addDevice` calls, in call order. -/
def DevMgr.run (m : DevMgr) : List Call → Option (DevMgr × List QByteArray)
  | [] => some (m, [])
  | c :: cs =>
    match m.call c with
    | none => none
    | some (m1, ids1) =>
      match DevMgr.run m1 cs with
      | none => none
      | some (m2, ids2) => some (m2, ids1 ++ ids2)

/-- The number of `addDevice` calls in a sequence. -/
def addCount : List Call → Nat
  | [] => 0
  | .addDevice _ :: cs => addCount cs + 1
  | _ :: cs => addCount cs

/-! ## RequestRef (remdev.h) -/

/-- Reduction of an integer to the range of a `qint64`. -/
def wrapInt64 (n : Int) : Int :=
  (n + 2 ^ 63) % 2 ^ 64 - 2 ^ 63

/-- The struct `RemDev::RequestRef` (remdev.h 432-461).  The `QPointer<QObject>`
is `none` when it is null: when it was built from a null pointer or its object
has been destroyed. -/
structure RequestRef where
  /-- The guarded pointer to the object the handler is called on. -/
  handlerObj : Option Nat
  /-- The name of the handler function. -/
  handlerFn : String
  /-- The method name. -/
  method : String
  /-- The issue time, in milliseconds since the epoch. -/
  time : Int
  /-- The absolute deadline, or 0 when the request has no timeout. -/
  timeout_time : Int
  deriving DecidableEq, Repr

/-- The constructor `RequestRef(handlerObj, handlerFn, method, timeout)`
(remdev.h 433-440); `now` is the value of `QDateTime::currentMSecsSinceEpoch()`. -/
def RequestRef.new (now : Int) (handlerObj : Option Nat) (handlerFn method : String)
    (timeout : Int) : RequestRef :=
  { time := now
    timeout_time := if timeout ≠ 0 then wrapInt64 (now + timeout) else 0
    handlerObj := handlerObj
    handlerFn := handlerFn
    method := method }

/-- The default constructor `RequestRef()` (remdev.h 441): `handlerObj = 0`; the
other members are not initialised, so they are whatever the memory held. -/
def RequestRef.invalid (handlerFn method : String) (time timeout_time : Int) :
    RequestRef :=
  { handlerObj := none, handlerFn := handlerFn, method := method,
    time := time, timeout_time := timeout_time }

/-- `RequestRef::valid` (remdev.h 450-454). -/
def RequestRef.valid (r : RequestRef) (checkTime : Int) : Bool :=
  if checkTime ≠ 0 ∧ r.timeout_time ≠ 0 then
    if r.timeout_time < checkTime then false
    else !r.handlerObj.isNone
  else !r.handlerObj.isNone

/-! ## NetDev (netdev.cpp) -/

/-- The newline byte. -/
def newline : UInt8 := 10

/-- The part of a `NetDev` that `handleData` works on: the socket `s` (whether
its handshake has completed, and its unread bytes) and the record of the calls
made into `RemDev`. -/
structure NetDev where
  /-- The value of `s->isEncrypted()`. -/
  encrypted : Bool
  /-- The unread bytes buffered in the socket, oldest first. -/
  buffer : List UInt8
  /-- Observation: the buffer passed to each `handleItem` call, oldest first. -/
  items : List (List UInt8)
  /-- Observation: the reason of each `close` call, oldest first. -/
  closes : List DisconnectReason
  deriving DecidableEq, Repr

/-- `QIODevice::canReadLine`: the buffer holds a newline. -/
def canReadLine (buf : List UInt8) : Bool :=
  buf.contains newline

/-- `QIODevice::bytesAvailable`. -/
def bytesAvailable (buf : List UInt8) : Int :=
  buf.length

/-- Reads bytes until a newline has been read, `n` bytes have been read or the
buffer is empty: the bytes read and the bytes left. -/
def readUpTo : Nat → List UInt8 → List UInt8 × List UInt8
  | 0, buf => ([], buf)
  | _ + 1, [] => ([], [])
  | n + 1, b :: bs =>
    if b = newline then ([b], bs)
    else ((b :: (readUpTo n bs).1), (readUpTo n bs).2)

/-- `QIODevice::readLine(data, maxSize)`: reads up to `maxSize - 1` bytes, up to
and including the first newline, and stores them in `data` followed by a
terminating zero byte.  Returns the number of bytes read (`-1` when
`maxSize < 2`), the content written to `data`, and the bytes left in the
device. -/
def readLine (buf : List UInt8) (maxSize : Int) : Int × List UInt8 × List UInt8 :=
  if maxSize < 2 then (-1, [], buf)
  else
    let r := readUpTo (maxSize - 1).toNat buf
    (r.1.length, r.1 ++ [0], r.2)

/-- The call `handleItem(buffer)`; `RemDev::handleItem` is outside netdev.cpp,
the call is recorded with the content of the buffer it is given. -/
def NetDev.handleItem (d : NetDev) (data : List UInt8) : NetDev :=
  { d with items := d.items ++ [data] }

/-- The loop of `NetDev::handleData` (netdev.cpp 113-119). -/
def NetDev.readLoop (d : NetDev) : NetDev :=
  if hcan : canReadLine d.buffer = true then
    let size : Int := bytesAvailable d.buffer + 1
    let r := readLine d.buffer size
    let d1 := { d with buffer := r.2.2 }
    if 0 < r.1 then NetDev.readLoop (d1.handleItem r.2.1)
    else NetDev.readLoop d1
  else d
termination_by d.buffer.length
decreasing_by
  all_goals
    have key : ∀ (n : Nat) (l : List UInt8), (readUpTo n l).2.length ≤ l.length := by
      intro n
      induction n with
      | zero => intro l; simp [readUpTo]
      | succ n ih =>
        intro l
        cases l with
        | nil => simp [readUpTo]
        | cons b bs =>
          have := ih bs
          simp only [readUpTo]
          by_cases hbn : b = newline
          · simp [hbn]
          · simp [hbn]
            omega
    cases hb : d.buffer with
    | nil => simp [canReadLine, hb] at hcan
    | cons b bs =>
      have hk := key bs.length bs
      have h2 : ¬ ((bs.length : Int) + 1 + 1 < 2) := by omega
      by_cases hbn : b = newline
      · simp [NetDev.handleItem, readLine, bytesAvailable, hb, readUpTo, hbn, h2]
      · simp [NetDev.handleItem, readLine, bytesAvailable, hb, readUpTo, hbn, h2]
        omega

/-- `NetDev::handleData` (netdev.cpp 111-120). -/
def NetDev.handleData (d : NetDev) : NetDev :=
  if !d.encrypted then d
  else d.readLoop

/-! ## Request (remdev.h) -/

/-- The class `RemDev::Request` (remdev.h 102-158).  Pointers are natural
numbers, 0 being the null pointer. -/
structure Request where
  /-- The method name. -/
  method : String
  /-- The pointer `params` (may be 0). -/
  params : Nat
  /-- The device which sent the request. -/
  device : Nat
  /-- The pointer `id`: 0 if this is a notification. -/
  id : Nat
  /-- The root document pointer. -/
  doc : Nat
  /-- The response document pointer. -/
  outDoc : Nat
  deriving DecidableEq, Repr

/-- The constructor `Request(method, params, doc, device, id)`
(remdev.h 140-148). -/
def Request.new (method : String) (params doc device id : Nat) : Request :=
  { method := method, params := params, device := device, id := id, doc := doc,
    outDoc := 0 }

/-- `Request::isRequest` (remdev.h 125-127): `return (bool) id;`. -/
def Request.isRequest (r : Request) : Bool :=
  r.id != 0

/-! ## RegistrationState (remdev.h) -/

/-- The enumerator `UnregisteredState = 0x0` (remdev.h 366). -/
def UnregisteredState : Nat := 0x0

/-- The enumerator `RegSentFlag = 0x1` (remdev.h 367). -/
def RegSentFlag : Nat := 0x1

/-- The enumerator `RegAcceptedFlag = 0x2` (remdev.h 368). -/
def RegAcceptedFlag : Nat := 0x2

/-- The enumerator `RemoteRegAcceptedFlag = 0x4` (remdev.h 369). -/
def RemoteRegAcceptedFlag : Nat := 0x4

/-- The enumerator
`RegisteredState = RegSentFlag|RegAcceptedFlag|RemoteRegAcceptedFlag`
(remdev.h 370). -/
def RegisteredState : Nat :=
  RegSentFlag ||| RegAcceptedFlag ||| RemoteRegAcceptedFlag

/-- The three registration flags of `RegistrationState`. -/
inductive RegFlag where
  | regSent
  | regAccepted
  | remoteRegAccepted
  deriving DecidableEq, Repr

/-- The value of a registration flag. -/
def RegFlag.value : RegFlag → Nat
  | .regSent => RegSentFlag
  | .regAccepted => RegAcceptedFlag
  | .remoteRegAccepted => RemoteRegAcceptedFlag

/-- The bitwise OR of a collection of flags, set one after the other starting
from `UnregisteredState`. -/
def orFlags (fs : List RegFlag) : Nat :=
  fs.foldl (fun s f => s ||| f.value) UnregisteredState

/-- Whether the bit of flag `f` is set in the state `s`. -/
def hasFlag (s : Nat) (f : RegFlag) : Bool :=
  s &&& f.value != 0

/-! ## Qt network types -/

/-- A `QHostAddress`: the null address, an IPv4 address (a 32-bit number), an
IPv6 address (a 128-bit number) or the dual-stack any-address
`QHostAddress::Any`. -/
inductive QHostAddress where
  | null
  | ipv4 (a : Nat)
  | ipv6 (a : Nat)
  | any
  deriving DecidableEq, Repr

/-- The enum `QAbstractSocket::NetworkLayerProtocol`. -/
inductive NetworkLayerProtocol where
  | IPv4Protocol
  | IPv6Protocol
  | AnyIPProtocol
  | UnknownNetworkLayerProtocol
  deriving DecidableEq, Repr

/-- `QHostAddress::protocol`. -/
def QHostAddress.protocol : QHostAddress → NetworkLayerProtocol
  | .null => .UnknownNetworkLayerProtocol
  | .ipv4 _ => .IPv4Protocol
  | .ipv6 _ => .IPv6Protocol
  | .any => .AnyIPProtocol

/-- The address `QHostAddress::LocalHost`, 127.0.0.1. -/
def QHostAddress.LocalHost : QHostAddress := .ipv4 0x7f000001

/-- The address `QHostAddress::LocalHostIPv6`, ::1. -/
def QHostAddress.LocalHostIPv6 : QHostAddress := .ipv6 1

/-- The enum `QAbstractSocket::SocketState`. -/
inductive SocketState where
  | UnconnectedState
  | HostLookupState
  | ConnectingState
  | ConnectedState
  | BoundState
  | ListeningState
  | ClosingState
  deriving DecidableEq, Repr

/-- The socket options that netdev.cpp sets (`QAbstractSocket::SocketOption`). -/
inductive SocketOption where
  | LowDelayOption
  | KeepAliveOption
  deriving DecidableEq, Repr

/-- A value of the enum `QAbstractSocket::SocketError`, as its integer code. -/
abbrev SocketError := Int

/-- The enumerator `QAbstractSocket::RemoteHostClosedError`, whose code is 1. -/
def RemoteHostClosedError : SocketError := 1

/-- The text
`QString("DDX bug: Unhandled network error (QAbstractSocket): '%1'").arg(error)`
built by both `handleNetworkError` functions: the placeholder is replaced by
the decimal numeral of the error code. -/
def unhandledErrorText (error : SocketError) : String :=
  "DDX bug: Unhandled network error (QAbstractSocket): '" ++ toString error ++ "'"

/-! ## NetDev event handlers (netdev.cpp) -/

/-- What the event handlers of `NetDev` do to the world outside netdev.cpp;
each call is recorded, oldest first. -/
inductive NetDevEvent where
  /-- The call `log(msg)`. -/
  | log (msg : String)
  /-- The call `close(reason, fromRemote)`. -/
  | close (reason : DisconnectReason) (fromRemote : Bool)
  /-- The call `s->setSocketOption(option, value)`. -/
  | setSocketOption (option : SocketOption) (value : Int)
  /-- The call `deleteLater()` on the device. -/
  | deleteLater
  /-- The call `s->deleteLater()` on the socket. -/
  | socketDeleteLater
  /-- The call `s->startServerEncryption()`. -/
  | startServerEncryption
  /-- The call `connectionReady()`. -/
  | connectionReady
  deriving DecidableEq, Repr

/-- `NetDev::handleDisconnection` (netdev.cpp 122-126), on the record `t` of
the calls made so far. -/
def NetDev.handleDisconnection (t : List NetDevEvent) : List NetDevEvent :=
  t ++ [.log "Remote disconnected", .close .UnknownReason true]

/-- `NetDev::handleNetworkError` (netdev.cpp 128-135), on the record `t` of the
calls made so far. -/
def NetDev.handleNetworkError (t : List NetDevEvent) (error : SocketError) :
    List NetDevEvent :=
  if error = RemoteHostClosedError then t
  else t ++ [.log (unhandledErrorText error)]

/-- What `NetDev::sub_init` sees of the socket it has just built. -/
structure NewSocket where
  /-- The member `descriptor`: not 0 for an incoming connection. -/
  descriptor : Int
  /-- The result of `s->setSocketDescriptor(descriptor)`. -/
  descriptorAccepted : Bool
  /-- The value of `s->state()`. -/
  state : SocketState
  /-- The value of `s->peerAddress()`. -/
  peerAddress : QHostAddress
  /-- The text `s->peerAddress().toString()`. -/
  peerAddressText : String
  /-- The value of `s->peerPort()`. -/
  peerPort : Nat
  deriving DecidableEq, Repr

/-- The socket configuration of `NetDev::sub_init` (netdev.cpp 81-97): the
options set, then the signal connections (no call is made by them) and
`connectionReady()`. -/
def NetDev.configure (peerAddress : QHostAddress) : List NetDevEvent :=
  let usingIPv6 : Bool := peerAddress.protocol = NetworkLayerProtocol.IPv6Protocol
  let localhost := if usingIPv6 then QHostAddress.LocalHostIPv6 else QHostAddress.LocalHost
  let isLocal : Bool := peerAddress = localhost
  [.setSocketOption .LowDelayOption 1]
    ++ (if !isLocal then [.setSocketOption .KeepAliveOption 1] else [])
    ++ [.connectionReady]

/-- `NetDev::sub_init` (netdev.cpp 43-98): the calls it makes. -/
def NetDev.sub_init (x : NewSocket) : List NetDevEvent :=
  if x.descriptor ≠ 0 then
    if !x.descriptorAccepted then [.log "Could not ", .deleteLater]
    else if x.state ≠ SocketState.ConnectedState then [.socketDeleteLater]
    else
      [.startServerEncryption,
        .log ("Received new connection from " ++ x.peerAddressText ++ ":" ++
          toString x.peerPort)]
        ++ NetDev.configure x.peerAddress
  else NetDev.configure x.peerAddress

/-! ## Qt strings -/

/-- One step of UTF-8 decoding: `acc` holds the bits read so far of a character
that still needs `need` continuation bytes.  A byte that cannot continue or
start a character yields U+FFFD. -/
def utf8DecodeAux : Nat → Nat → List UInt8 → List Char
  | _, 0, [] => []
  | _, _ + 1, [] => [Char.ofNat 0xFFFD]
  | _, 0, b :: bs =>
    if b.toNat < 0x80 then Char.ofNat b.toNat :: utf8DecodeAux 0 0 bs
    else if 0xC0 ≤ b.toNat ∧ b.toNat < 0xE0 then utf8DecodeAux (b.toNat % 0x20) 1 bs
    else if 0xE0 ≤ b.toNat ∧ b.toNat < 0xF0 then utf8DecodeAux (b.toNat % 0x10) 2 bs
    else if 0xF0 ≤ b.toNat ∧ b.toNat < 0xF8 then utf8DecodeAux (b.toNat % 0x08) 3 bs
    else Char.ofNat 0xFFFD :: utf8DecodeAux 0 0 bs
  | acc, k + 1, b :: bs =>
    if 0x80 ≤ b.toNat ∧ b.toNat < 0xC0 then
      if k = 0 then Char.ofNat (acc * 0x40 + b.toNat % 0x40) :: utf8DecodeAux 0 0 bs
      else utf8DecodeAux (acc * 0x40 + b.toNat % 0x40) k bs
    else Char.ofNat 0xFFFD :: utf8DecodeAux 0 0 bs

/-- The conversion `QString(const QByteArray &)`: the bytes up to the first
zero byte, decoded as UTF-8. -/
def QString.fromByteArray (ba : List UInt8) : String :=
  String.mk (utf8DecodeAux 0 0 (ba.takeWhile (fun b => b != 0)))

/-- `QChar::isSpace`: the ASCII white space characters, U+0085, U+00A0 and
the separators of Unicode. -/
def QChar.isSpace (c : Char) : Bool :=
  let u := c.toNat
  u == 0x20 || (0x09 ≤ u && u ≤ 0x0D) || u == 0x85 || u == 0xA0 || u == 0x1680 ||
    (0x2000 ≤ u && u ≤ 0x200A) || u == 0x2028 || u == 0x2029 || u == 0x202F ||
    u == 0x205F || u == 0x3000

/-- `QString::trimmed`: white space removed from both ends. -/
def QString.trimmed (s : String) : String :=
  String.mk (((s.data.dropWhile QChar.isSpace).reverse.dropWhile QChar.isSpace).reverse)

/-! ## Network (DDX-daemon/network.cpp) -/

/-- A socket held by the daemon's `Network`: its identity (the pointer), its
`state()` and its unread bytes. -/
structure QAbstractSocket where
  /-- The pointer to the socket object. -/
  ptr : Nat
  /-- The value of `state()`. -/
  state : SocketState
  /-- The unread bytes, oldest first. -/
  buffer : List UInt8
  deriving DecidableEq, Repr

/-- What `Network` does to the world outside network.cpp; each call is
recorded, oldest first. -/
inductive NetworkEvent where
  /-- The signal `sendLog(out)`. -/
  | sendLog (out : String)
  /-- The call `server->listen(address, port)`; `port` is a `quint16`. -/
  | listen (address : QHostAddress) (port : Nat)
  /-- The call `d->quit(code)`. -/
  | quit (code : Int)
  /-- The queued call `metaObject()->invokeMethod(d, "quit", Qt::QueuedConnection)`. -/
  | quitQueued
  /-- The call `deleteLater()` on the socket with the given pointer. -/
  | deleteLater (socket : Nat)
  deriving DecidableEq, Repr

/-- The members of `Network` used by network.cpp: the hash `sockets` as the
list of its entries in iteration order, the list `ur_sockets`, and the record
of the calls made so far. -/
structure Network where
  /-- The `QHash<QString, QAbstractSocket*> sockets`. -/
  sockets : List (String × QAbstractSocket)
  /-- The `QList<QAbstractSocket*> ur_sockets`. -/
  ur_sockets : List QAbstractSocket
  /-- Observation: the calls made so far, oldest first. -/
  events : List NetworkEvent
  deriving DecidableEq, Repr

/-- What `Network` uses of the daemon `d` and of the server socket. -/
structure Daemon where
  /-- The value `d->s(key).toInt()` of a setting. -/
  settingInt : String → Int
  /-- The value `d->s(key).toBool()` of a setting. -/
  settingBool : String → Bool
  /-- The result of `server->listen(address, port)`. -/
  listenResult : QHostAddress → Nat → Bool
  /-- The text `server->errorString()`. -/
  errorString : String
  /-- The constant `E_TCP_SERVER_FAILED` (constants.h is not among the sources). -/
  E_TCP_SERVER_FAILED : Int

/-- What `Network::log` (network.cpp 152-157) emits for `msg`. -/
def Network.logEvent (msg : String) : NetworkEvent :=
  .sendLog ("network:" ++ msg)

/-- `Network::log` (network.cpp 152-157). -/
def Network.log (n : Network) (msg : String) : Network :=
  { n with events := n.events ++ [Network.logEvent msg] }

/-- `Network::init` (network.cpp 46-66); the `int port` becomes a `quint16`
when it is passed to `listen`. -/
def Network.init (n : Network) (d : Daemon) : Network :=
  let port : Int := d.settingInt "network/GUIPort"
  let a : QHostAddress :=
    if d.settingBool "network/AllowExternalManagement" then QHostAddress.any
    else QHostAddress.LocalHost
  let port16 : Nat := (port % 65536).toNat
  let n1 := { n with events := n.events ++ [NetworkEvent.listen a port16] }
  if !d.listenResult a port16 then
    let n2 := n1.log ("Server creation failed with error '" ++ d.errorString ++
      "'.  This is likely because another DDX daemon is already running on this machine.")
    { n2 with events := n2.events ++ [NetworkEvent.quit d.E_TCP_SERVER_FAILED] }
  else n1

/-- The first loop of `Network::handleData` (network.cpp 80-84), over the
registered sockets: the log lines it emits. -/
def Network.readRegistered : List (String × QAbstractSocket) → List NetworkEvent
  | [] => []
  | e :: rest =>
    if canReadLine e.2.buffer then
      Network.logEvent "Can read data" :: Network.readRegistered rest
    else Network.readRegistered rest

/-- The text `QString(socket->readLine()).trimmed()` for a socket with the
given unread bytes. -/
def Network.saidLine (buf : List UInt8) : String :=
  QString.trimmed (QString.fromByteArray (readUpTo buf.length buf).1)

/-- The second loop of `Network::handleData` (network.cpp 85-94), over the
sockets of `ur_sockets` from some index on: the sockets afterwards and the
calls made.  After the line `exit` the function returns. -/
def Network.readUnregistered : List QAbstractSocket → List QAbstractSocket × List NetworkEvent
  | [] => ([], [])
  | s :: rest =>
    if canReadLine s.buffer then
      let line := Network.saidLine s.buffer
      let s1 := { s with buffer := (readUpTo s.buffer.length s.buffer).2 }
      let said := Network.logEvent ("Device said '" ++ line ++ "'")
      if line = "exit" then (s1 :: rest, [said, NetworkEvent.quitQueued])
      else (s1 :: (Network.readUnregistered rest).1, said :: (Network.readUnregistered rest).2)
    else (s :: (Network.readUnregistered rest).1, (Network.readUnregistered rest).2)

/-- `Network::handleData` (network.cpp 76-95). -/
def Network.handleData (n : Network) : Network :=
  { sockets := n.sockets
    ur_sockets := (Network.readUnregistered n.ur_sockets).1
    events := n.events ++ Network.readRegistered n.sockets ++
      (Network.readUnregistered n.ur_sockets).2 }

/-- The two loops of `Network::handleDisconnection` (network.cpp 119-128 over
the entries of `sockets`, with `it = sockets.erase(it)` or `++it`; 129-136
over `ur_sockets`, with `removeAt(i)` or `i++`), from position `i` on: an
entry whose socket is unconnected is removed and the socket scheduled for
deletion, the position staying where it is; otherwise the position advances. -/
def sweepLoop {α : Type} (sock : α → QAbstractSocket) (i : Nat) (l : List α)
    (events : List NetworkEvent) : List α × List NetworkEvent :=
  if h : i < l.length then
    if (sock (l.get ⟨i, h⟩)).state = SocketState.UnconnectedState then
      sweepLoop sock i (l.eraseIdx i)
        (events ++ [NetworkEvent.deleteLater (sock (l.get ⟨i, h⟩)).ptr])
    else sweepLoop sock (i + 1) l events
  else (l, events)
termination_by l.length - i
decreasing_by
  · simp only [List.length_eraseIdx, h, if_true]
    omega
  · omega

/-- `Network::handleDisconnection` (network.cpp 118-141). -/
def Network.handleDisconnection (n : Network) : Network :=
  let r1 := sweepLoop (fun e : String × QAbstractSocket => e.2) 0 n.sockets n.events
  let r2 := sweepLoop (fun s : QAbstractSocket => s) 0 n.ur_sockets r1.2
  let count : Int := wrapInt32 ((r1.1.length : Int) + (r2.1.length : Int))
  { sockets := r1.1
    ur_sockets := r2.1
    events := r2.2 ++
      [Network.logEvent ("Disconnected; there are " ++ toString count ++
        " active connections")] }

/-- `Network::handleNetworkError` (network.cpp 143-150). -/
def Network.handleNetworkError (n : Network) (error : SocketError) : Network :=
  if error = RemoteHostClosedError then n
  else n.log (unhandledErrorText error)

/-- What `Path::alert` uses of a `Module`: the text `getName()` returns
(module.h is not among the sources). -/
structure Module where
  /-- The value of `getName()`. -/
  name : String
  deriving DecidableEq, Repr

/-- The members of `Path` set or read in path.cpp. -/
structure Path where
  /-- The member `name`. -/
  name : String
  /-- The member `ready`. -/
  ready : Bool
  /-- The member `running`. -/
  running : Bool
  deriving DecidableEq, Repr

/-- What a call of `Path::alert` leaves behind: the final value of its local
string `out`, and the arguments of the `sendAlert` signals it emitted. -/
structure AlertResult where
  /-- The local `out` when the function returns. -/
  out : String
  /-- The argument of each `emit sendAlert(...)`, oldest first. -/
  sent : List String
  deriving DecidableEq, Repr

/-- `Path::alert` (path.cpp 85-93); `m` is `none` for a null module pointer.
The string `out` is assembled and then `sendAlert(msg)` is emitted. -/
def Path.alert (p : Path) (msg : String) (m : Option Module) : AlertResult :=
  let out0 : String := p.name
  let out1 : String :=
    match m with
    | some mod => (out0 ++ ":") ++ mod.name
    | none => out0
  let out2 : String := (out1 ++ ": ") ++ msg
  { out := out2, sent := [msg] }

/-! ## Lemmas on the close-all sweep -/

/-- While `closing` is set, `RemDev::close` only adds its record: the
`removeDevice` it re-enters returns at once. -/
theorem RemDev.close_of_closing (dev : RemDevPtr) (r : DisconnectReason) (m : DevMgr)
    (h : m.closing = true) :
    RemDev.close dev r m = some
      { m with
        closeCalls := m.closeCalls ++ [CloseCall.mk dev r m.dLock true m.devices] } := by
  simp [RemDev.close, DevMgr.removeDevice, h]

/-- While `closing` is set, the loop of `closeAll` started at index `i` closes
the devices from index `i` on, in list order, and changes nothing else. -/
theorem DevMgr.closeLoop_of_closing (r : DisconnectReason) :
    ∀ (n i : Nat) (m : DevMgr), m.devices.length - i = n → m.closing = true →
      DevMgr.closeLoop r i m = some
        { m with
          closeCalls := m.closeCalls ++
            (m.devices.drop i).map (fun d => CloseCall.mk d r m.dLock true m.devices) } := by
  intro n
  induction n with
  | zero =>
    intro i m hn hc
    have hi : ¬ i < m.devices.length := by omega
    have hd : m.devices.drop i = [] := List.drop_eq_nil_of_le (by omega)
    rw [DevMgr.closeLoop, dif_neg hi, hd]
    simp
  | succ n ih =>
    intro i m hn hc
    have hi : i < m.devices.length := by omega
    rw [DevMgr.closeLoop, dif_pos hi]
    split
    · rename_i heq
      rw [RemDev.close_of_closing _ _ _ hc] at heq
      cases heq
    · rename_i m' heq
      rw [RemDev.close_of_closing _ _ _ hc] at heq
      injection heq with heq
      subst heq
      have hd : m.devices.drop i = m.devices.get ⟨i, hi⟩ :: m.devices.drop (i + 1) := by
        simp
      rw [ih (i + 1)]
      · simp only [hd, List.map_cons, List.append_assoc, List.singleton_append]
      · simp only
        omega
      · exact hc

/-- The result of `closeAll` on a registry whose lock is free. -/
theorem DevMgr.closeAll_eq (m : DevMgr) (r : DisconnectReason) (hl : m.dLock = false) :
    m.closeAll r = some
      { devices := []
        unregCt := m.unregCt
        closing := false
        dLock := false
        closeCalls := m.closeCalls ++
          m.devices.map (fun d => CloseCall.mk d r true true m.devices) } := by
  have hloop := DevMgr.closeLoop_of_closing r _ 0
    { devices := m.devices, unregCt := m.unregCt, closing := true, dLock := true,
      closeCalls := m.closeCalls } rfl rfl
  simp [DevMgr.closeAll, DevMgr.lockD, hl, DevMgr.unlockD, hloop]

/-! ## closeAll -/

/-- C1: on a registry with device list `L`, no sweep in progress and the lock
free, `closeAll r` returns; the `close` calls it made are exactly one
`close(r)` per element of `L`, in list order, and afterwards the device list
is empty and `closing` is false. -/
theorem closeAll_closes_each_device_once (m : DevMgr) (r : DisconnectReason)
    (hclosing : m.closing = false) (hlock : m.dLock = false) :
    ∃ m' calls, m.closeAll r = some m' ∧
      m'.closeCalls = m.closeCalls ++ calls ∧
      calls.map (fun c => (c.dev, c.reason)) = m.devices.map (fun d => (d, r)) ∧
      m'.devices = [] ∧ m'.closing = false := by
  have _ := hclosing
  refine ⟨_, _, DevMgr.closeAll_eq m r hlock, rfl, ?_, rfl, rfl⟩
  simp [List.map_map, Function.comp_def]

/-- C1, witness: three devices and `ShuttingDown` give exactly three
`close(ShuttingDown)` calls and an empty registry. -/
theorem closeAll_closes_each_device_once_witness :
    ∃ m' calls,
      DevMgr.closeAll
        { devices := [11, 22, 33], unregCt := 3, closing := false, dLock := false,
          closeCalls := [] } DisconnectReason.ShuttingDown = some m' ∧
      m'.closeCalls = [] ++ calls ∧
      calls.map (fun c => (c.dev, c.reason)) =
        [(11, DisconnectReason.ShuttingDown), (22, DisconnectReason.ShuttingDown),
         (33, DisconnectReason.ShuttingDown)] ∧
      m'.devices = [] ∧ m'.closing = false :=
  closeAll_closes_each_device_once
    { devices := [11, 22, 33], unregCt := 3, closing := false, dLock := false,
      closeCalls := [] } DisconnectReason.ShuttingDown rfl rfl

/-- C2, as stated, fails: on a registry of three devices every `close` made by
`closeAll` is made while `dLock` is held and while the device list still has
its three entries. -/
theorem closeAll_close_outside_lock_counterexample :
    ∃ m', DevMgr.closeAll
        { devices := [11, 22, 33], unregCt := 3, closing := false, dLock := false,
          closeCalls := [] } DisconnectReason.ShuttingDown = some m' ∧
      m'.closeCalls.length = 3 ∧
      ∀ c ∈ m'.closeCalls, ¬ (c.lockHeld = false ∧ c.devicesSeen = []) := by
  refine ⟨_, DevMgr.closeAll_eq _ _ rfl, ?_, ?_⟩
  · simp
  · intro c hc
    simp at hc
    rcases hc with rfl | rfl | rfl <;> simp

/-- C2, amended: `closeAll` sets `closing`, takes `dLock` and closes every
member while the lock is held, `closing` is set and the device list is still
the whole list; the list is cleared and the lock released only after the last
`close`. -/
theorem closeAll_closes_under_lock (m : DevMgr) (r : DisconnectReason)
    (hclosing : m.closing = false) (hlock : m.dLock = false) :
    ∃ m' calls, m.closeAll r = some m' ∧
      m'.closeCalls = m.closeCalls ++ calls ∧
      calls.length = m.devices.length ∧
      (∀ c ∈ calls, c.lockHeld = true ∧ c.closingSeen = true ∧ c.devicesSeen = m.devices) ∧
      m'.devices = [] ∧ m'.dLock = false ∧ m'.closing = false := by
  have _ := hclosing
  refine ⟨_, _, DevMgr.closeAll_eq m r hlock, rfl, ?_, ?_, rfl, rfl, rfl⟩
  · simp
  · intro c hc
    simp only [List.mem_map] at hc
    obtain ⟨d, _, rfl⟩ := hc
    exact ⟨rfl, rfl, rfl⟩

/-- C2, amended, witness: a registry of two devices. -/
theorem closeAll_closes_under_lock_witness :
    ∃ m' calls,
      DevMgr.closeAll
        { devices := [4, 9], unregCt := 2, closing := false, dLock := false,
          closeCalls := [] } DisconnectReason.Restarting = some m' ∧
      m'.closeCalls = [] ++ calls ∧
      calls.length = 2 ∧
      (∀ c ∈ calls, c.lockHeld = true ∧ c.closingSeen = true ∧ c.devicesSeen = [4, 9]) ∧
      m'.devices = [] ∧ m'.dLock = false ∧ m'.closing = false :=
  closeAll_closes_under_lock
    { devices := [4, 9], unregCt := 2, closing := false, dLock := false,
      closeCalls := [] } DisconnectReason.Restarting rfl rfl

/-! ## RequestRef::valid -/

/-- C3, as stated, fails: a request issued at time 1000 with a timeout of 50
and a live handler is still valid when checked at time 1050. -/
theorem valid_at_deadline_counterexample :
    (RequestRef.new 1000 (some 1) "handler" "ping" 50).timeout_time = 1000 + 50 ∧
    (RequestRef.new 1000 (some 1) "handler" "ping" 50).valid 1050 = true := by
  decide

/-- C3, amended: for a request issued at time `T > 0` with timeout `t > 0`
(the deadline `T + t` within the range of `qint64`) and a live handler,
`valid c` is false for every check time `c > T + t`, and true at `c = T + t`. -/
theorem valid_false_after_deadline (T t : Int) (obj : Nat) (fn method : String)
    (hT : 0 < T) (ht : 0 < t) (hrange : T + t < 2 ^ 63) :
    (RequestRef.new T (some obj) fn method t).timeout_time = T + t ∧
    (∀ c : Int, T + t < c → (RequestRef.new T (some obj) fn method t).valid c = false) ∧
    (RequestRef.new T (some obj) fn method t).valid (T + t) = true := by
  have hne : t ≠ 0 := by omega
  have hw : wrapInt64 (T + t) = T + t := by
    unfold wrapInt64
    omega
  have htt : (RequestRef.new T (some obj) fn method t).timeout_time = T + t := by
    simp [RequestRef.new, hne, hw]
  refine ⟨htt, ?_, ?_⟩
  · intro c hc
    have hc0 : c ≠ 0 := by omega
    have hd0 : T + t ≠ 0 := by omega
    simp [RequestRef.valid, htt, hc0, hd0, hc]
  · simp [RequestRef.valid, htt]
    simp [RequestRef.new]

/-- C3, amended, witness: issue time 1000, timeout 50. -/
theorem valid_false_after_deadline_witness :
    (RequestRef.new 1000 (some 1) "handler" "ping" 50).timeout_time = 1000 + 50 ∧
    (∀ c : Int, 1000 + 50 < c →
      (RequestRef.new 1000 (some 1) "handler" "ping" 50).valid c = false) ∧
    (RequestRef.new 1000 (some 1) "handler" "ping" 50).valid (1000 + 50) = true :=
  valid_false_after_deadline 1000 50 1 "handler" "ping" (by decide) (by decide) (by decide)

/-- C4: a `RequestRef` whose handler reference is null is not valid at any
check time, whatever its `time` and `timeout_time` are. -/
theorem valid_false_of_null_handler (r : RequestRef) (c : Int)
    (hnull : r.handlerObj = none) : r.valid c = false := by
  unfold RequestRef.valid
  split
  · split
    · rfl
    · simp [hnull]
  · simp [hnull]

/-- C4, witness: a default-constructed reference checked at time 0. -/
theorem valid_false_of_null_handler_witness :
    (RequestRef.invalid "" "" 7 3).handlerObj = none ∧
    (RequestRef.invalid "" "" 7 3).valid 0 = false :=
  ⟨rfl, valid_false_of_null_handler (RequestRef.invalid "" "" 7 3) 0 rfl⟩

/-! ## NetDev::handleData -/

/-- With room for the whole buffer, reading from a buffer that holds a newline
yields the bytes up to and including the first newline and leaves the rest. -/
theorem readUpTo_line : ∀ (n : Nat) (buf : List UInt8), buf.length ≤ n → newline ∈ buf →
    ∃ body, newline ∉ body ∧ (readUpTo n buf).1 = body ++ [newline] ∧
      buf = body ++ [newline] ++ (readUpTo n buf).2 := by
  intro n
  induction n with
  | zero =>
    intro buf hlen hmem
    have : buf = [] := List.length_eq_zero.mp (by omega)
    simp [this] at hmem
  | succ n ih =>
    intro buf hlen hmem
    cases buf with
    | nil => simp at hmem
    | cons b bs =>
      by_cases hb : b = newline
      · exact ⟨[], by simp, by simp [readUpTo, hb], by simp [readUpTo, hb]⟩
      · have hmem' : newline ∈ bs := by
          rcases List.mem_cons.mp hmem with h | h
          · exact absurd h.symm hb
          · exact h
        obtain ⟨body, h1, h2, h3⟩ := ih bs (by simpa using hlen) hmem'
        refine ⟨b :: body, ?_, ?_, ?_⟩
        · simp [h1, Ne.symm hb]
        · simp [readUpTo, hb, h2]
        · simp only [readUpTo, hb, if_false]
          rw [List.cons_append, List.cons_append, ← h3]

/-- The loop of `handleData` passes each newline-terminated line of the buffer,
followed by the terminating zero byte, to `handleItem`, in order, and leaves
the bytes after the last newline. -/
theorem NetDev.readLoop_lines : ∀ (n : Nat) (d : NetDev), d.buffer.length = n →
    ∃ lines : List (List UInt8),
      d.readLoop.items = d.items ++ lines.map (fun l => l ++ [0]) ∧
      lines.length = d.buffer.count newline ∧
      (∀ l ∈ lines, ∃ body, newline ∉ body ∧ l = body ++ [newline]) ∧
      lines.flatten ++ d.readLoop.buffer = d.buffer ∧
      newline ∉ d.readLoop.buffer ∧
      d.readLoop.closes = d.closes ∧ d.readLoop.encrypted = d.encrypted := by
  intro n
  induction n using Nat.strong_induction_on with
  | _ n ih =>
    intro d hn
    by_cases hcan : canReadLine d.buffer = true
    · have hmem : newline ∈ d.buffer := by simpa [canReadLine] using hcan
      obtain ⟨body, h1, h2, h3⟩ := readUpTo_line d.buffer.length d.buffer (le_refl _) hmem
      generalize hrest : (readUpTo d.buffer.length d.buffer).2 = rest at h3
      have hrl : readLine d.buffer (bytesAvailable d.buffer + 1) =
          (((body ++ [newline]).length : Int), (body ++ [newline]) ++ [0], rest) := by
        have h2' : ¬ ((d.buffer.length : Int) + 1 < 2) := by
          have : 0 < d.buffer.length := List.length_pos_of_mem hmem
          omega
        simp only [readLine, bytesAvailable, h2', if_false, add_sub_cancel_right,
          Int.toNat_ofNat, h2, hrest]
      have hstep : d.readLoop =
          (NetDev.handleItem { d with buffer := rest } ((body ++ [newline]) ++ [0])).readLoop := by
        rw [NetDev.readLoop, dif_pos hcan]
        simp only [hrl]
        rw [if_pos (by simp)]
      have hlt : rest.length < n := by
        rw [← hn, h3]
        simp
        omega
      obtain ⟨lines, l1, l2, l3, l4, l5, l6, l7⟩ :=
        ih rest.length hlt
          (NetDev.handleItem { d with buffer := rest } ((body ++ [newline]) ++ [0])) rfl
      rw [hstep]
      refine ⟨(body ++ [newline]) :: lines, ?_, ?_, ?_, ?_, l5, l6, l7⟩
      · rw [l1]
        simp [NetDev.handleItem]
      · rw [h3]
        simp only [NetDev.handleItem] at l2
        simp [l2, List.count_append, List.count_eq_zero_of_not_mem h1]
      · intro l hl
        rcases List.mem_cons.mp hl with rfl | hl
        · exact ⟨body, h1, rfl⟩
        · exact l3 l hl
      · have l4' : lines.flatten ++ (NetDev.handleItem { d with buffer := rest }
            ((body ++ [newline]) ++ [0])).readLoop.buffer = rest := l4
        rw [h3, List.flatten_cons, List.append_assoc, l4']
    · have hmem : newline ∉ d.buffer := by simpa [canReadLine] using hcan
      rw [NetDev.readLoop, dif_neg hcan]
      exact ⟨[], by simp, by simp [List.count_eq_zero_of_not_mem hmem], by simp, by simp, hmem, rfl, rfl⟩

/-- C5: on an encrypted socket `handleData` terminates (it is a total
function) and calls `handleItem` once per newline of the buffer: the calls
receive, in arrival order, the successive newline-terminated lines (each ends
in its newline and holds no other; in the buffer passed it is followed by the
terminating zero byte of `readLine`), and the bytes left in the socket are
those after the last newline, with no newline among them. -/
theorem handleData_delivers_each_line (d : NetDev) (henc : d.encrypted = true) :
    ∃ lines : List (List UInt8),
      d.handleData.items = d.items ++ lines.map (fun l => l ++ [0]) ∧
      lines.length = d.buffer.count newline ∧
      (∀ l ∈ lines, ∃ body, newline ∉ body ∧ l = body ++ [newline]) ∧
      lines.flatten ++ d.handleData.buffer = d.buffer ∧
      newline ∉ d.handleData.buffer := by
  obtain ⟨lines, h1, h2, h3, h4, h5, _, _⟩ := NetDev.readLoop_lines _ d rfl
  have hd : d.handleData = d.readLoop := by simp [NetDev.handleData, henc]
  rw [hd]
  exact ⟨lines, h1, h2, h3, h4, h5⟩

/-- C5, witness: the buffer `ab\nc\nd` on an encrypted socket. -/
theorem handleData_delivers_each_line_witness :
    (NetDev.mk true [97, 98, 10, 99, 10, 100] [] []).encrypted = true ∧
    ∃ lines : List (List UInt8),
      (NetDev.mk true [97, 98, 10, 99, 10, 100] [] []).handleData.items =
        [] ++ lines.map (fun l => l ++ [0]) ∧
      lines.length = List.count newline [97, 98, 10, 99, 10, 100] ∧
      (∀ l ∈ lines, ∃ body, newline ∉ body ∧ l = body ++ [newline]) ∧
      lines.flatten ++ (NetDev.mk true [97, 98, 10, 99, 10, 100] [] []).handleData.buffer =
        [97, 98, 10, 99, 10, 100] ∧
      newline ∉ (NetDev.mk true [97, 98, 10, 99, 10, 100] [] []).handleData.buffer :=
  ⟨rfl, handleData_delivers_each_line (NetDev.mk true [97, 98, 10, 99, 10, 100] [] []) rfl⟩

/-- C6: while the encryption handshake has not completed, `handleData` calls
`handleItem` not at all and leaves the socket buffer as it is: it changes
nothing. -/
theorem handleData_before_handshake (d : NetDev) (henc : d.encrypted = false) :
    d.handleData = d ∧ d.handleData.items = d.items ∧ d.handleData.buffer = d.buffer := by
  have hd : d.handleData = d := by simp [NetDev.handleData, henc]
  rw [hd]
  exact ⟨rfl, rfl, rfl⟩

/-- C6, witness: a complete line buffered before the handshake. -/
theorem handleData_before_handshake_witness :
    (NetDev.mk false [97, 98, 10, 99] [] []).encrypted = false ∧
    (NetDev.mk false [97, 98, 10, 99] [] []).handleData = NetDev.mk false [97, 98, 10, 99] [] [] ∧
    (NetDev.mk false [97, 98, 10, 99] [] []).handleData.items = [] ∧
    (NetDev.mk false [97, 98, 10, 99] [] []).handleData.buffer = [97, 98, 10, 99] :=
  ⟨rfl, handleData_before_handshake (NetDev.mk false [97, 98, 10, 99] [] []) rfl⟩

/-- C7, as stated, fails: with a maximum frame size of 4, a socket that is not
yet encrypted and buffers 9 unread bytes is not closed by `handleData`; no
`close` call is made, so none with `BufferOverflow`. -/
theorem handleData_overflow_counterexample :
    (NetDev.mk false [97, 98, 99, 100, 101, 102, 103, 104, 10] [] []).encrypted = false ∧
    4 < (NetDev.mk false [97, 98, 99, 100, 101, 102, 103, 104, 10] [] []).buffer.length ∧
    (NetDev.mk false [97, 98, 99, 100, 101, 102, 103, 104, 10] [] []).handleData.closes = [] ∧
    (NetDev.mk false [97, 98, 99, 100, 101, 102, 103, 104, 10] [] []).handleData.closes ≠
      [DisconnectReason.BufferOverflow] := by
  decide

/-- C7, amended: `handleData` enforces no frame size limit before the
handshake.  For every socket that is not yet encrypted and every maximum
frame size exceeded by its buffered bytes, `handleData` makes no `close` call,
parses no frame and keeps the bytes buffered. -/
theorem handleData_no_overflow_check (d : NetDev) (maxFrameSize : Nat)
    (henc : d.encrypted = false) (hbig : maxFrameSize < d.buffer.length) :
    d.handleData.closes = d.closes ∧ d.handleData.items = d.items ∧
      d.handleData.buffer = d.buffer := by
  have _ := hbig
  have hd : d.handleData = d := by simp [NetDev.handleData, henc]
  rw [hd]
  exact ⟨rfl, rfl, rfl⟩

/-- C7, amended, witness: 9 buffered bytes against a limit of 4. -/
theorem handleData_no_overflow_check_witness :
    (NetDev.mk false [97, 98, 99, 100, 101, 102, 103, 104, 10] [] []).handleData.closes = [] ∧
    (NetDev.mk false [97, 98, 99, 100, 101, 102, 103, 104, 10] [] []).handleData.items = [] ∧
    (NetDev.mk false [97, 98, 99, 100, 101, 102, 103, 104, 10] [] []).handleData.buffer =
      [97, 98, 99, 100, 101, 102, 103, 104, 10] :=
  handleData_no_overflow_check
    (NetDev.mk false [97, 98, 99, 100, 101, 102, 103, 104, 10] [] []) 4 rfl (by decide)

/-! ## removeDevice and addDevice -/

/-- C8: while a close-all sweep is in progress (`closing` is set),
`removeDevice` returns without any effect: the device list is unchanged and
`dLock` is neither taken nor released, whether or not it is held. -/
theorem removeDevice_noop_while_closing (m : DevMgr) (dev : RemDevPtr)
    (hclosing : m.closing = true) : m.removeDevice dev = some m := by
  simp [DevMgr.removeDevice, hclosing]

/-- C8, witness: the lock is held by the sweep and the device is in the list. -/
theorem removeDevice_noop_while_closing_witness :
    DevMgr.removeDevice
      { devices := [1, 2], unregCt := 2, closing := true, dLock := true, closeCalls := [] } 1 =
    some { devices := [1, 2], unregCt := 2, closing := true, dLock := true, closeCalls := [] } :=
  removeDevice_noop_while_closing
    { devices := [1, 2], unregCt := 2, closing := true, dLock := true, closeCalls := [] } 1 rfl

/-- The result of `removeDevice` when no sweep is in progress and the lock is
free: the first occurrence of the device is erased. -/
theorem DevMgr.removeDevice_eq (m : DevMgr) (dev : RemDevPtr)
    (hc : m.closing = false) (hl : m.dLock = false) :
    m.removeDevice dev = some { m with devices := m.devices.erase dev } := by
  simp [DevMgr.removeDevice, DevMgr.lockD, DevMgr.unlockD, hc, hl]

/-- The result of `addDevice` when the lock is free. -/
theorem DevMgr.addDevice_eq (m : DevMgr) (dev : RemDevPtr) (hl : m.dLock = false) :
    m.addDevice dev = some
      ({ m with
          devices := m.devices ++ [dev]
          unregCt := wrapInt32 (m.unregCt + 1) },
        toUtf8 (unknownName (wrapInt32 (m.unregCt + 1)))) := by
  simp [DevMgr.addDevice, DevMgr.lockD, DevMgr.unlockD, hl]

/-- Every sequence of calls made on an idle registry (no sweep in progress,
lock free) runs to completion and leaves the registry idle. -/
theorem DevMgr.run_idle : ∀ (calls : List Call) (m : DevMgr),
    m.closing = false → m.dLock = false →
    ∃ m' ids, m.run calls = some (m', ids) ∧ m'.closing = false ∧ m'.dLock = false := by
  intro calls
  induction calls with
  | nil => intro m hc hl; exact ⟨m, [], rfl, hc, hl⟩
  | cons c cs ih =>
    intro m hc hl
    cases c with
    | addDevice dev =>
      obtain ⟨m', ids, h1, h2, h3⟩ := ih
        { m with devices := m.devices ++ [dev], unregCt := wrapInt32 (m.unregCt + 1) } hc hl
      exact ⟨m', toUtf8 (unknownName (wrapInt32 (m.unregCt + 1))) :: ids,
        by simp [DevMgr.run, DevMgr.call, DevMgr.addDevice_eq m dev hl, h1], h2, h3⟩
    | removeDevice dev =>
      obtain ⟨m', ids, h1, h2, h3⟩ := ih { m with devices := m.devices.erase dev } hc hl
      exact ⟨m', ids,
        by simp [DevMgr.run, DevMgr.call, DevMgr.removeDevice_eq m dev hc hl, h1], h2, h3⟩
    | closeAll r =>
      obtain ⟨m', ids, h1, h2, h3⟩ := ih
        { devices := [], unregCt := m.unregCt, closing := false, dLock := false,
          closeCalls := m.closeCalls ++
            m.devices.map (fun d => CloseCall.mk d r true true m.devices) } rfl rfl
      exact ⟨m', ids, by simp [DevMgr.run, DevMgr.call, DevMgr.closeAll_eq m r hl, h1], h2, h3⟩

/-- Erasing one occurrence of `dev` does not change the other entries or
their order. -/
theorem erase_filter_ne (l : List RemDevPtr) (dev : RemDevPtr) :
    (l.erase dev).filter (fun d => d ≠ dev) = l.filter (fun d => d ≠ dev) := by
  induction l with
  | nil => simp
  | cons x xs ih =>
    by_cases hx : x = dev
    · subst hx
      simp
    · have hx' : (x == dev) = false := by simpa using hx
      rw [List.erase_cons]
      simp only [hx', Bool.false_eq_true, if_false, List.filter_cons, ih]

/-- C9, as stated, fails: a device passed to `addDevice` twice is still a
member of the device list after one `removeDevice`. -/
theorem removeDevice_twice_added_counterexample :
    ∃ m ids m', DevMgr.run DevMgr.fresh [Call.addDevice 7, Call.addDevice 7] = some (m, ids) ∧
      m.removeDevice 7 = some m' ∧ 7 ∈ m'.devices :=
  ⟨_, _, _, rfl, rfl, by decide⟩

/-- C9, amended: in every state reached from a fresh `DevMgr` by `addDevice`,
`removeDevice` and `closeAll` calls, `removeDevice dev` returns having erased
the first occurrence of `dev`: every other entry is still present in its
original relative order, and `dev` is no longer a member provided it was in
the list at most once. -/
theorem removeDevice_removes_first (calls : List Call) (m : DevMgr) (ids : List QByteArray)
    (dev : RemDevPtr) (hreach : DevMgr.run DevMgr.fresh calls = some (m, ids)) :
    ∃ m', m.removeDevice dev = some m' ∧
      m'.devices = m.devices.erase dev ∧
      (m.devices.count dev ≤ 1 → dev ∉ m'.devices) ∧
      m'.devices.filter (fun d => d ≠ dev) = m.devices.filter (fun d => d ≠ dev) := by
  obtain ⟨m1, ids1, h1, hc, hl⟩ := DevMgr.run_idle calls DevMgr.fresh rfl rfl
  rw [hreach] at h1
  injection h1 with h1
  injection h1 with h1 _
  subst h1
  refine ⟨_, DevMgr.removeDevice_eq m dev hc hl, rfl, ?_, ?_⟩
  · intro hcount hmem
    have := List.count_pos_iff.mpr hmem
    rw [List.count_erase_self] at this
    omega
  · exact erase_filter_ne m.devices dev


/-- C9, amended, witness: the state after adding 3, 4 and 3 again; removing 4,
which is in the list once. -/
theorem removeDevice_removes_first_witness :
    ∃ m', DevMgr.removeDevice
        { devices := [3, 4, 3], unregCt := 3, closing := false, dLock := false,
          closeCalls := [] } 4 = some m' ∧
      m'.devices = List.erase [3, 4, 3] 4 ∧
      (List.count 4 [3, 4, 3] ≤ 1 → 4 ∉ m'.devices) ∧
      m'.devices.filter (fun d => d ≠ 4) = List.filter (fun d => d ≠ 4) [3, 4, 3] :=
  removeDevice_removes_first
    [Call.addDevice 3, Call.addDevice 4, Call.addDevice 3]
    { devices := [3, 4, 3], unregCt := 3, closing := false, dLock := false, closeCalls := [] }
    [toUtf8 "Unknown1", toUtf8 "Unknown2", toUtf8 "Unknown3"] 4 rfl

/-- With enough fuel, `Nat.toDigitsCore` puts the decimal digits of `n` in
front of its accumulator. -/
theorem toDigitsCore_eq : ∀ (f n : Nat) (ds : List Char), n < f →
    Nat.toDigitsCore 10 f n ds = Nat.toDigits 10 n ++ ds := by
  intro f
  induction f using Nat.strong_induction_on with
  | _ f ih =>
    intro n ds hn
    cases f with
    | zero => omega
    | succ f =>
      by_cases h0 : n / 10 = 0
      · simp [Nat.toDigits, Nat.toDigitsCore, h0]
      · have hlt : n / 10 < n := by omega
        have e1 := ih f (by omega) (n / 10) (Nat.digitChar (n % 10) :: ds) (by omega)
        have e2 := ih n (by omega) (n / 10) [Nat.digitChar (n % 10)] hlt
        simp only [Nat.toDigits, Nat.toDigitsCore, h0, if_false] at e1 e2 ⊢
        rw [e1, e2]
        simp

/-- The numeral of a number below ten is its digit. -/
theorem toDigits_small (n : Nat) (h : n < 10) : Nat.toDigits 10 n = [Nat.digitChar n] := by
  have h0 : n / 10 = 0 := by omega
  have hm : n % 10 = n := by omega
  simp [Nat.toDigits, Nat.toDigitsCore, h0, hm]

/-- The numeral of a number from ten on is the numeral of its tenth followed
by its last digit. -/
theorem toDigits_step (n : Nat) (h : 10 ≤ n) :
    Nat.toDigits 10 n = Nat.toDigits 10 (n / 10) ++ [Nat.digitChar (n % 10)] := by
  have h0 : ¬ n / 10 = 0 := by omega
  have e := toDigitsCore_eq n (n / 10) [Nat.digitChar (n % 10)] (by omega)
  conv_lhs => unfold Nat.toDigits
  simp only [Nat.toDigitsCore, h0, if_false]
  exact e

/-- A decimal digit is encoded in UTF-8 as one byte, whose value is the digit
plus 48. -/
theorem encode_digit (d : Nat) (h : d < 10) :
    ∃ b : UInt8, String.utf8EncodeChar (Nat.digitChar d) = [b] ∧ b.toNat - 48 = d := by
  interval_cases d <;> exact ⟨_, rfl, rfl⟩

/-- The value of a numeral extended by one byte. -/
theorem decimalValue_snoc (bs : List UInt8) (b : UInt8) :
    decimalValue (bs ++ [b]) = 10 * decimalValue bs + (b.toNat - 48) := by
  simp [decimalValue, List.foldl_append]

/-- Reading back the UTF-8 decimal numeral of `n` gives `n`. -/
theorem decimalValue_digits : ∀ n : Nat,
    decimalValue ((Nat.toDigits 10 n).flatMap String.utf8EncodeChar) = n := by
  intro n
  induction n using Nat.strong_induction_on with
  | _ n ih =>
    by_cases h : n < 10
    · obtain ⟨b, hb, hv⟩ := encode_digit n h
      rw [toDigits_small n h]
      simp [hb, decimalValue, hv]
    · obtain ⟨b, hb, hv⟩ := encode_digit (n % 10) (Nat.mod_lt _ (by decide))
      rw [toDigits_step n (by omega), List.flatMap_append]
      simp only [List.flatMap_cons, List.flatMap_nil, List.append_nil, hb]
      rw [decimalValue_snoc, ih (n / 10) (by omega), hv]
      omega

/-- The encoding of a concatenation is the concatenation of the encodings. -/
theorem toUtf8_append (a b : String) : toUtf8 (a ++ b) = toUtf8 a ++ toUtf8 b := by
  simp [toUtf8, List.flatMap_append]

/-- Reading back the UTF-8 encoding of `Nat.repr n` gives `n`. -/
theorem decimalValue_repr (n : Nat) : decimalValue (toUtf8 (Nat.repr n)) = n :=
  decimalValue_digits n

/-- For a counter value that is not negative the name is `Unknown` followed by
the decimal numeral. -/
theorem unknownName_natCast (k : Nat) : unknownName (k : Int) = "Unknown" ++ Nat.repr k := rfl

/-- Different counter values give different identifiers. -/
theorem unknownName_injective (j k : Nat)
    (h : toUtf8 ("Unknown" ++ Nat.repr j) = toUtf8 ("Unknown" ++ Nat.repr k)) : j = k := by
  rw [toUtf8_append, toUtf8_append] at h
  have h' := List.append_cancel_left h
  rw [← decimalValue_repr j, ← decimalValue_repr k, h']

/-- Running a sequence of calls on an idle registry whose counter is `u`: the
identifiers returned are those of `u + 1`, `u + 2`, ... in call order, as long
as the counter stays below `2 ^ 31`. -/
theorem DevMgr.run_ids : ∀ (calls : List Call) (m : DevMgr) (u : Nat),
    m.closing = false → m.dLock = false → m.unregCt = u → u + addCount calls < 2 ^ 31 →
    ∃ m', m.run calls = some (m',
        (List.range (addCount calls)).map (fun i => toUtf8 ("Unknown" ++ Nat.repr (u + i + 1)))) ∧
      m'.closing = false ∧ m'.dLock = false ∧ m'.unregCt = (u + addCount calls : Nat) := by
  intro calls
  induction calls with
  | nil => intro m u hc hl hu _; exact ⟨m, rfl, hc, hl, by simpa [addCount] using hu⟩
  | cons c cs ih =>
    intro m u hc hl hu hlt
    cases c with
    | addDevice dev =>
      simp only [addCount] at hlt ⊢
      have hw : wrapInt32 (m.unregCt + 1) = ((u + 1 : Nat) : Int) := by
        rw [hu]
        unfold wrapInt32
        omega
      obtain ⟨m', h1, h2, h3, h4⟩ := ih
        { m with devices := m.devices ++ [dev], unregCt := wrapInt32 (m.unregCt + 1) } (u + 1)
        hc hl hw (by omega)
      refine ⟨m', ?_, h2, h3, ?_⟩
      · simp only [DevMgr.run, DevMgr.call, DevMgr.addDevice_eq m dev hl, Option.map_some', h1]
        rw [hw, unknownName_natCast, List.range_succ_eq_map]
        simp [Function.comp_def, Nat.add_assoc, Nat.add_comm 1]
      · rw [h4]
        congr 1
        omega
    | removeDevice dev =>
      simp only [addCount] at hlt ⊢
      obtain ⟨m', h1, h2, h3, h4⟩ := ih { m with devices := m.devices.erase dev } u hc hl hu hlt
      exact ⟨m', by simp [DevMgr.run, DevMgr.call, DevMgr.removeDevice_eq m dev hc hl, h1],
        h2, h3, h4⟩
    | closeAll r =>
      simp only [addCount] at hlt ⊢
      obtain ⟨m', h1, h2, h3, h4⟩ := ih
        { devices := [], unregCt := m.unregCt, closing := false, dLock := false,
          closeCalls := m.closeCalls ++
            m.devices.map (fun d => CloseCall.mk d r true true m.devices) } u rfl rfl hu hlt
      exact ⟨m', by simp [DevMgr.run, DevMgr.call, DevMgr.closeAll_eq m r hl, h1], h2, h3, h4⟩

/-- C10: in every sequence of `addDevice`, `removeDevice` and `closeAll` calls
on a fresh `DevMgr`, the `k`-th `addDevice` call (`k < 2 ^ 31`; `pre` is the
sequence of calls before it) returns, appends its device at the end of the
device list, and returns the UTF-8 text `Unknown` followed by the decimal
numeral of `k`; the `k - 1` identifiers returned by the earlier `addDevice`
calls all differ from it. -/
theorem addDevice_kth_identifier (pre : List Call) (dev : RemDevPtr) (k : Nat)
    (hk : addCount pre + 1 = k) (hlt : k < 2 ^ 31) :
    ∃ m ids m', DevMgr.run DevMgr.fresh pre = some (m, ids) ∧
      m.addDevice dev = some (m', toUtf8 ("Unknown" ++ Nat.repr k)) ∧
      m'.devices = m.devices ++ [dev] ∧
      ids.length = k - 1 ∧
      toUtf8 ("Unknown" ++ Nat.repr k) ∉ ids := by
  subst hk
  obtain ⟨m, h1, _, hl, hu⟩ := DevMgr.run_ids pre DevMgr.fresh 0 rfl rfl rfl (by omega)
  have hw : wrapInt32 (m.unregCt + 1) = ((addCount pre + 1 : Nat) : Int) := by
    rw [hu]
    unfold wrapInt32
    omega
  refine ⟨m, _,
    { m with devices := m.devices ++ [dev], unregCt := wrapInt32 (m.unregCt + 1) },
    h1, ?_, rfl, by simp, ?_⟩
  · rw [DevMgr.addDevice_eq m dev hl, hw, unknownName_natCast]
  · intro hmem
    simp only [List.mem_map, List.mem_range] at hmem
    obtain ⟨i, hi, heq⟩ := hmem
    have := unknownName_injective _ _ heq
    omega

/-- C10, witness: the third `addDevice` call, after a `removeDevice` and a
`closeAll`, returns the bytes of `Unknown3`. -/
theorem addDevice_kth_identifier_witness :
    ∃ m ids m',
      DevMgr.run DevMgr.fresh
        [Call.addDevice 5, Call.removeDevice 5, Call.closeAll DisconnectReason.ShuttingDown,
         Call.addDevice 6] = some (m, ids) ∧
      m.addDevice 7 = some (m', [85, 110, 107, 110, 111, 119, 110, 51]) ∧
      m'.devices = m.devices ++ [7] ∧
      ids.length = 3 - 1 ∧
      ([85, 110, 107, 110, 111, 119, 110, 51] : QByteArray) ∉ ids :=
  addDevice_kth_identifier
    [Call.addDevice 5, Call.removeDevice 5, Call.closeAll DisconnectReason.ShuttingDown,
     Call.addDevice 6] 7 3 rfl (by decide)

/-! ## Request::isRequest and timeouts of 0 -/

/-- C11: `isRequest` is true exactly when the stored `id` pointer is not null
and false exactly when it is 0 (a notification); two requests built with the
same `id` agree, whatever their method, params, document and device are. -/
theorem isRequest_iff_id (method : String) (params doc device id : Nat) :
    ((Request.new method params doc device id).isRequest = true ↔ id ≠ 0) ∧
    ((Request.new method params doc device id).isRequest = false ↔ id = 0) ∧
    ∀ (method' : String) (params' doc' device' : Nat),
      (Request.new method' params' doc' device' id).isRequest =
        (Request.new method params doc device id).isRequest := by
  refine ⟨?_, ?_, ?_⟩
  · simp [Request.isRequest, Request.new]
  · simp [Request.isRequest, Request.new]
  · intro _ _ _ _
    rfl

/-- C12: a `RequestRef` built with timeout 0 has no deadline
(`timeout_time = 0`), and `valid c` is true at every check time `c` while the
handler object is alive. -/
theorem valid_of_zero_timeout (now : Int) (obj : Nat) (fn method : String) (c : Int) :
    (RequestRef.new now (some obj) fn method 0).timeout_time = 0 ∧
    (RequestRef.new now (some obj) fn method 0).valid c = true := by
  simp [RequestRef.new, RequestRef.valid]

/-! ## NetDev event handlers -/

/-- C13: `NetDev::handleDisconnection` emits one log line and then makes one
`close` call, with reason `UnknownReason` and `fromRemote = true`; it makes no
other call. -/
theorem handleDisconnection_closes_once (t : List NetDevEvent) :
    ∃ msg, NetDev.handleDisconnection t =
        t ++ [NetDevEvent.log msg, NetDevEvent.close DisconnectReason.UnknownReason true] ∧
      ((NetDev.handleDisconnection t).drop t.length).count
        (NetDevEvent.close DisconnectReason.UnknownReason true) = 1 ∧
      ∀ r b, NetDevEvent.close r b ∈ (NetDev.handleDisconnection t).drop t.length →
        r = DisconnectReason.UnknownReason ∧ b = true := by
  refine ⟨"Remote disconnected", rfl, ?_, ?_⟩
  · simp [NetDev.handleDisconnection]
  · intro r b h
    simp [NetDev.handleDisconnection] at h
    exact h

/-- C14, as stated, fails: for the error code 0 (`ConnectionRefusedError`),
which is not `RemoteHostClosedError`, `NetDev::handleNetworkError` logs the
error and makes no `close` call. -/
theorem handleNetworkError_close_counterexample :
    (0 : SocketError) ≠ RemoteHostClosedError ∧
    NetDev.handleNetworkError [] 0 =
      [NetDevEvent.log "DDX bug: Unhandled network error (QAbstractSocket): '0'"] ∧
    ∀ r b, NetDevEvent.close r b ∉ NetDev.handleNetworkError [] 0 := by
  refine ⟨by decide, by decide, ?_⟩
  intro r b h
  have h2 : NetDev.handleNetworkError [] 0 =
      [NetDevEvent.log "DDX bug: Unhandled network error (QAbstractSocket): '0'"] := by decide
  rw [h2] at h
  simp at h

/-- C14, amended: for every socket error code other than
`RemoteHostClosedError`, `NetDev::handleNetworkError` logs the error, in one
log line, and makes no other call: the connection is not closed. -/
theorem handleNetworkError_logs_only (t : List NetDevEvent) (error : SocketError)
    (hne : error ≠ RemoteHostClosedError) :
    NetDev.handleNetworkError t error = t ++ [NetDevEvent.log (unhandledErrorText error)] ∧
    ∀ r b, NetDevEvent.close r b ∉ (NetDev.handleNetworkError t error).drop t.length := by
  have h : NetDev.handleNetworkError t error =
      t ++ [NetDevEvent.log (unhandledErrorText error)] := by
    simp [NetDev.handleNetworkError, hne]
  refine ⟨h, ?_⟩
  intro r b hmem
  rw [h] at hmem
  simp at hmem

/-- C14, amended, witness: the error code 13 (`SslHandshakeFailedError`). -/
theorem handleNetworkError_logs_only_witness :
    NetDev.handleNetworkError [] 13 = [] ++ [NetDevEvent.log (unhandledErrorText 13)] ∧
    ∀ r b, NetDevEvent.close r b ∉ (NetDev.handleNetworkError [] 13).drop ([] : List NetDevEvent).length :=
  handleNetworkError_logs_only [] 13 (by decide)

/-- C15: for the error code `RemoteHostClosedError` both `handleNetworkError`
functions emit nothing and change no state; for every other error code each
emits exactly one log line, whose text contains the decimal numeral of the
code, and changes nothing else. -/
theorem handleNetworkError_swallows_remote_closed (t : List NetDevEvent) (n : Network)
    (error : SocketError) :
    NetDev.handleNetworkError t RemoteHostClosedError = t ∧
    n.handleNetworkError RemoteHostClosedError = n ∧
    (error ≠ RemoteHostClosedError →
      ∃ before after : String,
        NetDev.handleNetworkError t error =
          t ++ [NetDevEvent.log (before ++ toString error ++ after)] ∧
        n.handleNetworkError error =
          { n with
            events := n.events ++
              [NetworkEvent.sendLog ("network:" ++ (before ++ toString error ++ after))] }) := by
  refine ⟨by simp [NetDev.handleNetworkError], by simp [Network.handleNetworkError], ?_⟩
  intro hne
  refine ⟨"DDX bug: Unhandled network error (QAbstractSocket): '", "'", ?_, ?_⟩
  · simp [NetDev.handleNetworkError, hne, unhandledErrorText]
  · simp [Network.handleNetworkError, hne, unhandledErrorText, Network.log, Network.logEvent]

/-! ## Network::init -/

/-- C16, as stated, fails: with `network/GUIPort` set to 70000 the port that
`Network::init` listens on is 4464, not the integer value of the setting. -/
theorem init_port_counterexample :
    (Network.init { sockets := [], ur_sockets := [], events := [] }
      { settingInt := fun _ => 70000, settingBool := fun _ => false,
        listenResult := fun _ _ => true, errorString := "",
        E_TCP_SERVER_FAILED := 1 }).events =
      [NetworkEvent.listen QHostAddress.LocalHost 4464] ∧
    ((4464 : Nat) : Int) ≠ 70000 := by
  decide

/-- C16, amended: `Network::init` calls `listen` exactly once.  The address is
the IPv4 loopback address unless the setting `network/AllowExternalManagement`
is true, in which case it is `Any`; the port is the integer value of
`network/GUIPort` converted to `quint16` (reduced modulo 65536), which is that
value itself when it lies in 0..65535.  If `listen` fails, `init` then emits
one log message and calls the daemon's `quit` with `E_TCP_SERVER_FAILED`,
making no second `listen` call; if it succeeds no further call is made. -/
theorem init_binds_once (n : Network) (d : Daemon) :
    ∃ (a : QHostAddress) (port : Nat) (msg : String),
      a = (if d.settingBool "network/AllowExternalManagement" = true then QHostAddress.any
        else QHostAddress.ipv4 0x7f000001) ∧
      (port : Int) = d.settingInt "network/GUIPort" % 65536 ∧
      (0 ≤ d.settingInt "network/GUIPort" ∧ d.settingInt "network/GUIPort" < 65536 →
        (port : Int) = d.settingInt "network/GUIPort") ∧
      (n.init d).events = n.events ++ [NetworkEvent.listen a port] ++
        (if d.listenResult a port = true then []
         else [NetworkEvent.sendLog msg, NetworkEvent.quit d.E_TCP_SERVER_FAILED]) ∧
      (n.init d).sockets = n.sockets ∧ (n.init d).ur_sockets = n.ur_sockets := by
  have hp : ((d.settingInt "network/GUIPort" % 65536).toNat : Int) =
      d.settingInt "network/GUIPort" % 65536 :=
    Int.toNat_of_nonneg (Int.emod_nonneg _ (by decide))
  refine ⟨_, (d.settingInt "network/GUIPort" % 65536).toNat,
    "network:" ++ ("Server creation failed with error '" ++ d.errorString ++
      "'.  This is likely because another DDX daemon is already running on this machine."),
    rfl, hp, ?_, ?_, ?_, ?_⟩
  · intro h
    rw [hp]
    exact Int.emod_eq_of_lt h.1 h.2
  · unfold Network.init
    by_cases hl : d.listenResult
        (if d.settingBool "network/AllowExternalManagement" = true then QHostAddress.any
          else QHostAddress.ipv4 0x7f000001)
        (d.settingInt "network/GUIPort" % 65536).toNat = true
    · simp [hl, QHostAddress.LocalHost]
    · simp only [Bool.not_eq_true] at hl
      simp [hl, QHostAddress.LocalHost, Network.log, Network.logEvent]
  · unfold Network.init
    simp only [Network.log]
    split <;> split <;> rfl
  · unfold Network.init
    simp only [Network.log]
    split <;> split <;> rfl

/-! ## RegistrationState -/

/-- One more flag OR-ed into a state below 8: the state stays below 8 and has
the flags it had and the new one. -/
theorem hasFlag_or (s : Nat) (hs : s < 8) (f g : RegFlag) :
    s ||| f.value < 8 ∧ hasFlag (s ||| f.value) g = (hasFlag s g || decide (f = g)) := by
  interval_cases s <;> cases f <;> cases g <;> decide

/-- Setting the flags of `fs` one after the other in a state below 8. -/
theorem hasFlag_foldl (fs : List RegFlag) : ∀ (s : Nat), s < 8 → ∀ g : RegFlag,
    fs.foldl (fun s f => s ||| f.value) s < 8 ∧
    hasFlag (fs.foldl (fun s f => s ||| f.value) s) g = (hasFlag s g || decide (g ∈ fs)) := by
  induction fs with
  | nil => intro s hs g; simp [hs]
  | cons f fs ih =>
    intro s hs g
    obtain ⟨h1, h2⟩ := hasFlag_or s hs f g
    obtain ⟨h3, h4⟩ := ih (s ||| f.value) h1 g
    refine ⟨h3, ?_⟩
    rw [List.foldl_cons, h4, h2]
    by_cases hfg : f = g
    · subst hfg
      simp
    · have hgf : ¬ g = f := fun h => hfg h.symm
      simp [hfg, hgf]

/-- A state below 8 is `RegisteredState` exactly when it has all three flags. -/
theorem registered_iff_hasFlag (s : Nat) (hs : s < 8) :
    s = RegisteredState ↔
      (hasFlag s RegFlag.regSent = true ∧ hasFlag s RegFlag.regAccepted = true ∧
        hasFlag s RegFlag.remoteRegAccepted = true) := by
  interval_cases s <;> decide

/-- C18: the OR of the flags of a collection `fs` of registration flags (the
empty OR being `UnregisteredState = 0`) is `RegisteredState` exactly when `fs`
holds all three flags, in whatever order and however often; and OR-ing a
further flag `f` into it clears no flag `g` that is set. -/
theorem registered_iff_all_flags (fs : List RegFlag) :
    orFlags [] = UnregisteredState ∧ UnregisteredState = 0 ∧
    (orFlags fs = RegisteredState ↔
      (RegFlag.regSent ∈ fs ∧ RegFlag.regAccepted ∈ fs ∧ RegFlag.remoteRegAccepted ∈ fs)) ∧
    (∀ f g : RegFlag, hasFlag (orFlags fs) g = true →
      hasFlag (orFlags fs ||| f.value) g = true) ∧
    (∀ f : RegFlag, orFlags (fs ++ [f]) = orFlags fs ||| f.value) := by
  have h0 : UnregisteredState < 8 := by decide
  have hlt : orFlags fs < 8 := (hasFlag_foldl fs _ h0 RegFlag.regSent).1
  have hflag : ∀ g, hasFlag (orFlags fs) g = decide (g ∈ fs) := by
    intro g
    have h := (hasFlag_foldl fs _ h0 g).2
    have hz : hasFlag UnregisteredState g = false := by cases g <;> decide
    rw [hz] at h
    simpa [orFlags] using h
  refine ⟨rfl, rfl, ?_, ?_, ?_⟩
  · rw [registered_iff_hasFlag _ hlt, hflag, hflag, hflag]
    simp
  · intro f g hg
    rw [(hasFlag_or _ hlt f g).2, hg]
    rfl
  · intro f
    simp [orFlags, List.foldl_append]

/-! ## NetDev::sub_init -/

/-- The calls of the socket configuration: the low-delay option, the
keep-alive option unless the peer address is the loopback address of its own
IP family, and `connectionReady`. -/
theorem NetDev.configure_eq (p : QHostAddress) :
    NetDev.configure p =
      NetDevEvent.setSocketOption SocketOption.LowDelayOption 1 ::
        ((if (p.protocol = NetworkLayerProtocol.IPv6Protocol ∧ p = QHostAddress.ipv6 1) ∨
              (p.protocol ≠ NetworkLayerProtocol.IPv6Protocol ∧ p = QHostAddress.ipv4 0x7f000001)
          then [] else [NetDevEvent.setSocketOption SocketOption.KeepAliveOption 1]) ++
        [NetDevEvent.connectionReady]) := by
  cases p with
  | null => simp [NetDev.configure, QHostAddress.protocol, QHostAddress.LocalHost]
  | any => simp [NetDev.configure, QHostAddress.protocol, QHostAddress.LocalHost]
  | ipv4 a =>
    by_cases h : a = 0x7f000001
    · simp [NetDev.configure, QHostAddress.protocol, QHostAddress.LocalHost, h]
    · simp [NetDev.configure, QHostAddress.protocol, QHostAddress.LocalHost, h]
  | ipv6 a =>
    by_cases h : a = 1
    · simp [NetDev.configure, QHostAddress.protocol, QHostAddress.LocalHostIPv6, h]
    · simp [NetDev.configure, QHostAddress.protocol, QHostAddress.LocalHostIPv6, h]

/-- When `sub_init` reaches the socket configuration, the calls it makes are
calls that set no socket option followed by those of the configuration. -/
theorem NetDev.sub_init_reaches (x : NewSocket)
    (hreach : x.descriptor = 0 ∨
      (x.descriptorAccepted = true ∧ x.state = SocketState.ConnectedState)) :
    ∃ pre, NetDev.sub_init x = pre ++ NetDev.configure x.peerAddress ∧
      ∀ o v, NetDevEvent.setSocketOption o v ∉ pre := by
  by_cases hd : x.descriptor = 0
  · exact ⟨[], by simp [NetDev.sub_init, hd], by simp⟩
  · rcases hreach with h | ⟨h1, h2⟩
    · exact absurd h hd
    · exact ⟨[NetDevEvent.startServerEncryption,
          NetDevEvent.log ("Received new connection from " ++ x.peerAddressText ++ ":" ++
            toString x.peerPort)],
        by simp [NetDev.sub_init, hd, h1, h2], by simp⟩

/-- C19: whenever `NetDev::sub_init` reaches the socket configuration (an
outgoing connection, or an incoming one whose descriptor was accepted and
whose socket is connected), it sets the low-delay option once, to 1, and it
sets the keep-alive option, to 1, exactly when the peer is not local: when the
peer address is not the loopback address of its own IP family (::1 for an IPv6
peer address, 127.0.0.1 otherwise).  For a local peer no keep-alive call is
made. -/
theorem sub_init_socket_options (x : NewSocket)
    (hreach : x.descriptor = 0 ∨
      (x.descriptorAccepted = true ∧ x.state = SocketState.ConnectedState)) :
    (NetDev.sub_init x).count
        (NetDevEvent.setSocketOption SocketOption.LowDelayOption 1) = 1 ∧
    (∀ v, NetDevEvent.setSocketOption SocketOption.LowDelayOption v ∈ NetDev.sub_init x →
      v = 1) ∧
    (NetDevEvent.setSocketOption SocketOption.KeepAliveOption 1 ∈ NetDev.sub_init x ↔
      ¬ ((x.peerAddress.protocol = NetworkLayerProtocol.IPv6Protocol ∧
            x.peerAddress = QHostAddress.ipv6 1) ∨
          (x.peerAddress.protocol ≠ NetworkLayerProtocol.IPv6Protocol ∧
            x.peerAddress = QHostAddress.ipv4 0x7f000001))) ∧
    (((x.peerAddress.protocol = NetworkLayerProtocol.IPv6Protocol ∧
            x.peerAddress = QHostAddress.ipv6 1) ∨
          (x.peerAddress.protocol ≠ NetworkLayerProtocol.IPv6Protocol ∧
            x.peerAddress = QHostAddress.ipv4 0x7f000001)) →
      ∀ v, NetDevEvent.setSocketOption SocketOption.KeepAliveOption v ∉ NetDev.sub_init x) := by
  obtain ⟨pre, hpre, hno⟩ := NetDev.sub_init_reaches x hreach
  rw [hpre, NetDev.configure_eq]
  have hcount : pre.count (NetDevEvent.setSocketOption SocketOption.LowDelayOption 1) = 0 :=
    List.count_eq_zero_of_not_mem (hno _ _)
  by_cases hlocal : (x.peerAddress.protocol = NetworkLayerProtocol.IPv6Protocol ∧
        x.peerAddress = QHostAddress.ipv6 1) ∨
      (x.peerAddress.protocol ≠ NetworkLayerProtocol.IPv6Protocol ∧
        x.peerAddress = QHostAddress.ipv4 0x7f000001)
  · simp only [if_pos hlocal]
    refine ⟨?_, ?_, ?_, ?_⟩
    · simp [List.count_append, hcount, List.count_cons]
    · intro v hv
      simpa [hno] using hv
    · simp [hno, hlocal]
    · intro _ v hv
      simp [hno] at hv
  · simp only [if_neg hlocal]
    refine ⟨?_, ?_, ?_, ?_⟩
    · simp [List.count_append, hcount, List.count_cons]
    · intro v hv
      simpa [hno] using hv
    · simp [hno, hlocal]
    · intro h
      exact absurd h hlocal


/-- C19, witness: an accepted incoming connection from the IPv4 address
10.0.0.2. -/
theorem sub_init_socket_options_witness :
    (NetDev.sub_init (NewSocket.mk 5 true SocketState.ConnectedState
        (QHostAddress.ipv4 0x0a000002) "10.0.0.2" 4000)).count
        (NetDevEvent.setSocketOption SocketOption.LowDelayOption 1) = 1 ∧
    NetDevEvent.setSocketOption SocketOption.KeepAliveOption 1 ∈
      NetDev.sub_init (NewSocket.mk 5 true SocketState.ConnectedState
        (QHostAddress.ipv4 0x0a000002) "10.0.0.2" 4000) :=
  have h := sub_init_socket_options (NewSocket.mk 5 true SocketState.ConnectedState
    (QHostAddress.ipv4 0x0a000002) "10.0.0.2" 4000) (Or.inr ⟨rfl, rfl⟩)
  ⟨h.1, h.2.2.1.mpr (by decide)⟩

/-! ## Network::handleDisconnection -/

/-- What `Path::alert` does for every name, message and module: it assembles
in `out` the name, then `:` and the module name if a module is given, then
`: ` and the message; but the one signal it emits carries the bare message,
which is never the assembled text. -/
theorem Path.alert_sends_msg (p : Path) (msg : String) (m : Option Module) :
    (p.alert msg m).sent = [msg] ∧
    (p.alert msg m).out =
      p.name ++ (match m with
        | some mod => ":" ++ mod.name
        | none => "") ++ ": " ++ msg ∧
    (p.alert msg m).sent ≠ [(p.alert msg m).out] := by
  have hout : (p.alert msg m).out =
      p.name ++ (match m with
        | some mod => ":" ++ mod.name
        | none => "") ++ ": " ++ msg := by
    cases m with
    | none => simp [Path.alert]
    | some mod => simp [Path.alert, String.append_assoc]
  refine ⟨rfl, hout, ?_⟩
  intro h
  have hlen : msg.length = (p.alert msg m).out.length := by
    have h' : msg = (p.alert msg m).out := by
      have := List.head_eq_of_cons_eq h
      exact this
    exact congrArg String.length h'
  rw [hout] at hlen
  simp only [String.length_append] at hlen
  have h2 : (": " : String).length = 2 := by decide
  omega

/-- C21 fails on the code: for the path named `path1`, the message `low flow`
and the module named `pump`, the assembled text is `path1:pump: low flow`, yet
the text emitted through `sendAlert` is the bare `low flow`; likewise without a
module. -/
theorem alert_emits_bare_message :
    (Path.alert (Path.mk "path1" false false) "low flow" (some (Module.mk "pump"))).out =
      "path1:pump: low flow" ∧
    (Path.alert (Path.mk "path1" false false) "low flow" (some (Module.mk "pump"))).sent =
      ["low flow"] ∧
    (Path.alert (Path.mk "path1" false false) "low flow" none).out = "path1: low flow" ∧
    (Path.alert (Path.mk "path1" false false) "low flow" none).sent = ["low flow"] := by
  decide

end DDX
